import Mathlib

/-!
Shallow embedding of `src/main.rs` of the catalyst project (Tuist-to-Bazel
converter) together with proofs about the claims of its specification.

The embedding models:
* the JSON values consumed and produced by the tool (`Json`),
* the serde-derived decoding of the graph data model
  (`TuistGraph`, `TuistProject`, `TuistTarget`, ...),
* the pure rule synthesis of `generate_build_file` (file classification,
  dependency resolution, the per-product-kind rule blocks and their text
  rendering, the Info.plist manifest),
* the write sequence of `generate_bazel_files` (file system effects modelled
  as an ordered list of path/content pairs), and
* the target resolution of `find_app_target`.

String primitives from the Rust standard library (`to_lowercase`,
`str::replace`, `Path::extension`, `Path::strip_prefix`, `Path::join`) are
modelled by structurally recursive functions over `List Char` so that every
definition evaluates inside the kernel.
-/

set_option autoImplicit false

/-- JSON values, modelling `serde_json::Value`.  Numbers are modelled as
integers; no field decoded by the program is numeric, so the number
representation is irrelevant to every claim. -/
inductive Json where
  | null
  | bool (b : Bool)
  | num (n : Int)
  | str (s : String)
  | arr (elems : List Json)
  | obj (fields : List (String × Json))

/-- Whether a JSON value is an object, modelling `Value::as_object().is_some()`. -/
def Json.isObj : Json → Bool
  | .obj _ => true
  | _ => false

/-- Extract a JSON string, modelling serde decoding a `String` field. -/
def Json.asString : Json → Option String
  | .str s => some s
  | _ => none

/-- Look up a field of a JSON object by key (objects carry unique keys, as
`serde_json::Map` does). -/
def getField (fields : List (String × Json)) (key : String) : Option Json :=
  (fields.find? (fun kv => kv.1 == key)).map (fun kv => kv.2)

/-! ## String and path helpers

These model the Rust standard library string/path operations used by
`generate_build_file` and `find_app_target`.  All are structurally recursive
so that concrete instances reduce in the kernel. -/

/-- Split a character list at every occurrence of `sep`; models splitting a
string on a single-character separator. -/
def splitChar (sep : Char) : List Char → List (List Char)
  | [] => [[]]
  | c :: rest =>
    let r := splitChar sep rest
    if c = sep then [] :: r
    else
      match r with
      | [] => [[c]]
      | h :: t => (c :: h) :: t

/-- Join strings with a separator, modelling Rust `slice::join`. -/
def joinSep (sep : String) : List String → String
  | [] => ""
  | [x] => x
  | x :: xs => x ++ sep ++ joinSep sep xs

/-- Concatenate a list of strings. -/
def joinAll (l : List String) : String :=
  l.foldl (fun acc s => acc ++ s) ""

/-- ASCII lower-casing of one character, modelling Rust `char::to_lowercase`
(the tool only ever meets ASCII target names). -/
def lowerChar (c : Char) : Char :=
  if 65 ≤ c.toNat ∧ c.toNat ≤ 90 then Char.ofNat (c.toNat + 32) else c

/-- Models Rust `str::to_lowercase` for ASCII strings. -/
def lowerString (s : String) : String :=
  ⟨s.data.map lowerChar⟩

/-- Fuel-indexed worker for `replaceStr`; one unit of fuel is spent per
position, which suffices because every step consumes at least one input
character when the pattern is nonempty. -/
def replaceAux (pat repl : List Char) : Nat → List Char → List Char
  | 0, l => l
  | _ + 1, [] => []
  | fuel + 1, c :: rest =>
    if pat.isPrefixOf (c :: rest) then
      repl ++ replaceAux pat repl fuel (rest.drop (pat.length - 1))
    else
      c :: replaceAux pat repl fuel rest

/-- Models Rust `str::replace`: replace every non-overlapping occurrence of
`pat` in `s` by `repl`, scanning left to right (for nonempty patterns, which
is the only way the program calls it). -/
def replaceStr (s pat repl : String) : String :=
  ⟨replaceAux pat.data repl.data s.data.length s.data⟩

/-- Whether `suffix` is a suffix of `s`. -/
def endsWithStr (s suffix : String) : Bool :=
  suffix.data.isSuffixOf s.data

/-- Whether a path is absolute (Unix paths, as produced by Tuist). -/
def isAbsolutePath (p : String) : Bool :=
  match p.data with
  | [] => false
  | c :: _ => c == '/'

/-- The normal components of a path, modelling `Path::components` for
well-formed Unix paths (empty segments and `.` segments are dropped). -/
def pathComponents (p : String) : List String :=
  ((splitChar '/' p.data).filter (fun l => decide (l ≠ [] ∧ l ≠ ['.']))).map
    (fun l => (⟨l⟩ : String))

/-- Models `Path::strip_prefix(base)` followed by `.display()`: component-wise
prefix removal, `none` when `base` is not a component prefix of `p`. -/
def pathRelativeTo (p base : String) : Option String :=
  if isAbsolutePath p = isAbsolutePath base then
    let pc := pathComponents p
    let bc := pathComponents base
    if bc.isPrefixOf pc then some (joinSep "/" (pc.drop bc.length))
    else none
  else none

/-- The final component of a path, modelling `Path::file_name` for ordinary
file paths. -/
def fileNameOf (p : String) : String :=
  match ((splitChar '/' p.data).filter (fun l => decide (l ≠ []))).getLast? with
  | some l => (⟨l⟩ : String)
  | none => ""

/-- Models `Path::extension`: the part of the file name after the last dot,
`none` when there is no dot or when the only dot is the leading one of a
hidden file. -/
def pathExtension (p : String) : Option String :=
  match splitChar '.' (fileNameOf p).data with
  | [] => none
  | [_] => none
  | [[], _] => none
  | parts => parts.getLast?.map (fun l => (⟨l⟩ : String))

/-- Wrap a string in double quotes, as the Rust code does with
`format!("\"..\"", ..)` when collecting source, resource and dependency
entries. -/
def quoteStr (s : String) : String :=
  "\"" ++ s ++ "\""

/-- Models `Path::join` for the paths the program builds: an absolute child
replaces the base, otherwise the child is appended with a `/` separator. -/
def pathJoin (base child : String) : String :=
  if isAbsolutePath child then child
  else if base = "" then child
  else if endsWithStr base "/" then base ++ child
  else base ++ "/" ++ child

/-! ## Data model (`TuistGraph` and friends, src/main.rs lines 50-97) -/

/-- `struct TargetReference` (src/main.rs:92-97). -/
structure TargetReference where
  name : String
  status : String
deriving DecidableEq

/-- `struct TuistDependency` (src/main.rs:87-90). -/
structure TuistDependency where
  target : Option TargetReference
deriving DecidableEq

/-- `struct ResolvedFile` (src/main.rs:82-85). -/
structure ResolvedFile where
  path : String
deriving DecidableEq

/-- `struct BuildableFolder` (src/main.rs:75-80). -/
structure BuildableFolder where
  path : String
  resolved_files : List ResolvedFile
deriving DecidableEq

/-- `struct TuistTarget` (src/main.rs:64-73). -/
structure TuistTarget where
  name : String
  product : String
  bundle_id : String
  buildable_folders : List BuildableFolder
  dependencies : List TuistDependency
deriving DecidableEq

/-- `struct TuistProject` (src/main.rs:57-62).  The Rust `targets` field is a
`HashMap<String, TuistTarget>`; it is modelled as the association list of its
entries in iteration order, so order-(in)dependence of the downstream
functions can be stated explicitly. -/
structure TuistProject where
  name : String
  path : String
  targets : List (String × TuistTarget)
deriving DecidableEq

/-- `struct TuistGraph` (src/main.rs:50-55).  The `projects` field is kept as
a raw JSON value, exactly as the Rust field `projects: serde_json::Value`. -/
structure TuistGraph where
  name : String
  path : String
  projects : Json

/-! ## Decoding (serde-derived `Deserialize` implementations) -/

/-- Decode a `TargetReference`: `name` is required, `status` carries
`#[serde(default)]`, so a missing `status` becomes the empty string while a
present but non-string `status` is an error. -/
def decodeTargetReference (j : Json) : Option TargetReference :=
  match j with
  | .obj fs => do
    let name ← (getField fs "name").bind Json.asString
    let status ←
      match getField fs "status" with
      | none => some ""
      | some v => v.asString
    some ⟨name, status⟩
  | _ => none

/-- Decode a `TuistDependency`: serde treats the `Option` field `target` as
implicitly optional — missing or `null` becomes `none`. -/
def decodeTuistDependency (j : Json) : Option TuistDependency :=
  match j with
  | .obj fs =>
    match getField fs "target" with
    | none => some ⟨none⟩
    | some .null => some ⟨none⟩
    | some v => (decodeTargetReference v).map (fun tr => ⟨some tr⟩)
  | _ => none

/-- Decode a `ResolvedFile` from an object with a string `path` field. -/
def decodeResolvedFile (j : Json) : Option ResolvedFile :=
  match j with
  | .obj fs => ((getField fs "path").bind Json.asString).map ResolvedFile.mk
  | _ => none

/-- Decode every element of a JSON array, failing if any element fails;
models serde decoding of a `Vec`. -/
def decodeList {α : Type} (f : Json → Option α) : List Json → Option (List α)
  | [] => some []
  | j :: rest => do
    let x ← f j
    let xs ← decodeList f rest
    some (x :: xs)

/-- Decode a `BuildableFolder` (`path` plus the `resolvedFiles` array). -/
def decodeBuildableFolder (j : Json) : Option BuildableFolder :=
  match j with
  | .obj fs => do
    let path ← (getField fs "path").bind Json.asString
    let filesJson ← getField fs "resolvedFiles"
    let files ←
      match filesJson with
      | .arr items => decodeList decodeResolvedFile items
      | _ => none
    some ⟨path, files⟩
  | _ => none

/-- Decode a `TuistTarget` with its serde field renames (`bundleId`,
`buildableFolders`). -/
def decodeTuistTarget (j : Json) : Option TuistTarget :=
  match j with
  | .obj fs => do
    let name ← (getField fs "name").bind Json.asString
    let product ← (getField fs "product").bind Json.asString
    let bundleId ← (getField fs "bundleId").bind Json.asString
    let foldersJson ← getField fs "buildableFolders"
    let folders ←
      match foldersJson with
      | .arr items => decodeList decodeBuildableFolder items
      | _ => none
    let depsJson ← getField fs "dependencies"
    let deps ←
      match depsJson with
      | .arr items => decodeList decodeTuistDependency items
      | _ => none
    some ⟨name, product, bundleId, folders, deps⟩
  | _ => none

/-- Decode the entries of the `targets` JSON object into an association list
in field order, modelling serde filling the `HashMap`. -/
def decodeTargetsObj : List (String × Json) → Option (List (String × TuistTarget))
  | [] => some []
  | (k, v) :: rest => do
    let t ← decodeTuistTarget v
    let ts ← decodeTargetsObj rest
    some ((k, t) :: ts)

/-- Decode a `TuistProject` (`serde_json::from_value` on one element of the
`projects` array, src/main.rs:227-228 and 556-557). -/
def decodeTuistProject (j : Json) : Option TuistProject :=
  match j with
  | .obj fs => do
    let name ← (getField fs "name").bind Json.asString
    let path ← (getField fs "path").bind Json.asString
    let targetsJson ← getField fs "targets"
    let targets ←
      match targetsJson with
      | .obj tfs => decodeTargetsObj tfs
      | _ => none
    some ⟨name, path, targets⟩
  | _ => none

/-- Decode a `TuistGraph` (src/main.rs:196-197): `name` and `path` must be
strings, `projects` may be any JSON value (the Rust field is a raw
`serde_json::Value`). -/
def decodeTuistGraph (j : Json) : Option TuistGraph :=
  match j with
  | .obj fs => do
    let name ← (getField fs "name").bind Json.asString
    let path ← (getField fs "path").bind Json.asString
    let projects ← getField fs "projects"
    some ⟨name, path, projects⟩
  | _ => none

/-- Serde-derived `Serialize` for `TuistGraph` at the JSON-value level
(src/main.rs:238, `serde_json::to_string_pretty`; text printing and reparsing
of the external library is the identity on JSON values, so the snapshot is
modelled by the value itself). -/
def serializeTuistGraph (g : TuistGraph) : Json :=
  .obj [("name", .str g.name), ("path", .str g.path), ("projects", g.projects)]

/-! ## Rule synthesis (`generate_build_file`, src/main.rs:345-533)

The text of the generated BUILD file is produced block by block.  Each block
is modelled structurally by `RuleBlock` (every field is exactly the value the
Rust code interpolates into the corresponding `push_str`), and `renderBlock`
produces the exact text of the source's `push_str` calls, so that
`buildContent` is the full BUILD-file text. -/

/-- The `srcs` attribute of a `swift_library` block: either the explicit list
of classified (already quoted) source entries, or the hard-coded glob fallback
used when no source files were classified. -/
inductive SrcsAttr where
  | explicitList (files : List String)
  | globPattern (pat : String)
deriving DecidableEq

/-- One emitted Bazel rule block.  `swiftLibrary` carries the (unquoted)
rule name, the `srcs` attribute, the `module_name`, the `testonly` flag and
the already-quoted `deps` entries; `iosApplication` and `iosUnitTest` carry
the attribute values interpolated by the corresponding `push_str` calls. -/
inductive RuleBlock where
  | swiftLibrary (name : String) (srcs : SrcsAttr) (moduleName : String)
      (testonly : Bool) (deps : List String)
  | iosApplication (name : String) (bundleId : String) (families : List String)
      (infoplists : List String) (minimumOsVersion : String) (deps : List String)
  | iosUnitTest (name : String) (bundleId : String) (minimumOsVersion : String)
      (testHost : String) (deps : List String)
deriving DecidableEq

/-- Whether a block is a `swift_library` (the library-style block). -/
def RuleBlock.isSwiftLibrary : RuleBlock → Bool
  | .swiftLibrary _ _ _ _ _ => true
  | _ => false

/-- Whether a block is an `ios_application` (the application-bundle block). -/
def RuleBlock.isIosApplication : RuleBlock → Bool
  | .iosApplication _ _ _ _ _ _ => true
  | _ => false

/-- The `srcs` attribute of a library block, if any. -/
def RuleBlock.srcsAttr : RuleBlock → Option SrcsAttr
  | .swiftLibrary _ srcs _ _ _ => some srcs
  | _ => none

/-- File classification (src/main.rs:355-376): walk every resolved file of
every buildable folder; `.swift` files that fall under the project path
become quoted source entries relative to the project path, files with one of
the fixed resource extensions become quoted resource entries, everything else
(unknown extension, no extension, or not under the project path) is silently
dropped.  The two accumulators mirror `source_files` and `resource_files`. -/
def classify (projectPath : String) (folders : List BuildableFolder) :
    List String × List String :=
  folders.foldl
    (fun acc folder =>
      folder.resolved_files.foldl
        (fun acc file =>
          match pathExtension file.path with
          | some ext =>
            if ext = "swift" then
              match pathRelativeTo file.path projectPath with
              | some rel => (acc.1 ++ [quoteStr rel], acc.2)
              | none => acc
            else if ext = "xcassets" ∨ ext = "storyboard" ∨ ext = "xib" then
              match pathRelativeTo file.path projectPath with
              | some rel => (acc.1, acc.2 ++ [quoteStr rel])
              | none => acc
            else acc
          | none => acc)
        acc)
    ([], [])

/-- Dependency resolution (src/main.rs:379-387): each dependency with a
present target reference contributes the quoted `":name"` label built from
the lower-cased reference name; dependencies without a target reference are
dropped. -/
def depsOf (t : TuistTarget) : List String :=
  t.dependencies.filterMap
    (fun dep => dep.target.map (fun tr => quoteStr (":" ++ lowerString tr.name)))

/-- The `srcs` attribute chosen at src/main.rs:397-404 (and the analogous
spots of the other two arms): the explicit classified list when nonempty,
otherwise the hard-coded glob fallback of that arm. -/
def srcsAttrOf (files : List String) (fallback : String) : SrcsAttr :=
  if files ≠ [] then .explicitList files else .globPattern fallback

/-- The rule blocks emitted for one target (the `match target.product.as_str()`
at src/main.rs:389-524): an `"app"` product yields a `swift_library` named
`<lower>_lib` plus an `ios_application` named `<lower>`; a `"unit_tests"`
product yields a test-only `swift_library` plus an `ios_unit_test` whose
`test_host` is the lower-casing of the target name with every occurrence of
`"Tests"` removed; every other product yields a single `swift_library`. -/
def targetBlocks (projectPath : String) (t : TuistTarget) : List RuleBlock :=
  let lower := lowerString t.name
  let sources := (classify projectPath t.buildable_folders).1
  let deps := depsOf t
  if t.product = "app" then
    [RuleBlock.swiftLibrary (lower ++ "_lib")
        (srcsAttrOf sources "Fixture/Sources/**/*.swift") t.name false deps,
      RuleBlock.iosApplication lower t.bundle_id ["iphone", "ipad"]
        [t.name ++ "-Info.plist"] "15.0" [quoteStr (":" ++ lower ++ "_lib")]]
  else if t.product = "unit_tests" then
    [RuleBlock.swiftLibrary (lower ++ "_lib")
        (srcsAttrOf sources "Fixture/Tests/**/*.swift") t.name true deps,
      RuleBlock.iosUnitTest lower t.bundle_id "15.0"
        (":" ++ lowerString (replaceStr t.name "Tests" ""))
        [quoteStr (":" ++ lower ++ "_lib")]]
  else
    [RuleBlock.swiftLibrary lower (srcsAttrOf sources "Sources/**/*.swift")
        t.name false deps]

/-- Render the `srcs` attribute text (src/main.rs:397-404 etc.). -/
def renderSrcsAttr : SrcsAttr → String
  | .explicitList files =>
    "    srcs = [\n        " ++ joinSep ",\n        " files ++ ",\n    ],\n"
  | .globPattern pat => "    srcs = glob([\"" ++ pat ++ "\"]),\n"

/-- Render the optional `deps` attribute of a `swift_library`
(src/main.rs:408-410 etc.): omitted entirely when the dependency list is
empty. -/
def renderDepsAttr (deps : List String) : String :=
  if deps = [] then "" else "    deps = [" ++ joinSep ", " deps ++ "],\n"

/-- Render one rule block to the exact text of the source's `push_str`
calls. -/
def renderBlock : RuleBlock → String
  | .swiftLibrary name srcs moduleName testonly deps =>
    "swift_library(\n    name = \"" ++ name ++ "\",\n" ++
    renderSrcsAttr srcs ++
    "    module_name = \"" ++ moduleName ++ "\",\n" ++
    (if testonly then "    testonly = True,\n" else "") ++
    renderDepsAttr deps ++
    "    visibility = [\"//visibility:public\"],\n)\n\n"
  | .iosApplication name bundleId families infoplists minimumOsVersion deps =>
    "ios_application(\n    name = \"" ++ name ++ "\",\n    bundle_id = \"" ++
    bundleId ++ "\",\n" ++
    "    families = [" ++ joinSep ", " (families.map quoteStr) ++ "],\n" ++
    "    infoplists = [" ++ joinSep ", " (infoplists.map quoteStr) ++ "],\n" ++
    "    minimum_os_version = \"" ++ minimumOsVersion ++ "\",\n" ++
    "    deps = [" ++ joinSep ", " deps ++ "],\n" ++
    ")\n\n"
  | .iosUnitTest name bundleId minimumOsVersion testHost deps =>
    "ios_unit_test(\n    name = \"" ++ name ++ "\",\n    bundle_id = \"" ++
    bundleId ++ "\",\n" ++
    "    minimum_os_version = \"" ++ minimumOsVersion ++ "\",\n" ++
    "    test_host = \"" ++ testHost ++ "\",\n" ++
    "    deps = [" ++ joinSep ", " deps ++ "],\n" ++
    ")\n\n"

/-- The text contributed to the BUILD file by one target. -/
def renderTarget (projectPath : String) (t : TuistTarget) : String :=
  joinAll ((targetBlocks projectPath t).map renderBlock)

/-- The fixed pair of load statements opening every BUILD file
(src/main.rs:348-350). -/
def loadPreamble : String :=
  "load(\"@build_bazel_rules_apple//apple:ios.bzl\", \"ios_application\", \"ios_unit_test\")\n" ++
  "load(\"@build_bazel_rules_swift//swift:swift.bzl\", \"swift_library\")\n\n"

/-- The complete BUILD-file text for one project: the preamble followed by
each target's blocks, accumulated in the iteration order of the `targets`
map (`for target in project.targets.values()`, src/main.rs:352). -/
def buildContent (project : TuistProject) : String :=
  project.targets.foldl (fun acc kv => acc ++ renderTarget project.path kv.2)
    loadPreamble

/-! ## The Info.plist manifest (src/main.rs:414-448) -/

/-- The manifest template up to the `CFBundleExecutable` value. -/
def plistPart1 : String :=
  "<?xml version=\"1.0\" encoding=\"UTF-8\"?>\n<!DOCTYPE plist PUBLIC \"-//Apple//DTD PLIST 1.0//EN\" \"http://www.apple.com/DTDs/PropertyList-1.0.dtd\">\n<plist version=\"1.0\">\n<dict>\n    <key>CFBundleDevelopmentRegion</key>\n    <string>en</string>\n    <key>CFBundleExecutable</key>\n    <string>"

/-- The manifest template between `CFBundleExecutable` and
`CFBundleIdentifier`. -/
def plistPart2 : String :=
  "</string>\n    <key>CFBundleIdentifier</key>\n    <string>"

/-- The manifest template between `CFBundleIdentifier` and `CFBundleName`. -/
def plistPart3 : String :=
  "</string>\n    <key>CFBundleInfoDictionaryVersion</key>\n    <string>6.0</string>\n    <key>CFBundleName</key>\n    <string>"

/-- The manifest template after the `CFBundleName` value. -/
def plistPart4 : String :=
  "</string>\n    <key>CFBundlePackageType</key>\n    <string>APPL</string>\n    <key>CFBundleShortVersionString</key>\n    <string>1.0</string>\n    <key>CFBundleVersion</key>\n    <string>1</string>\n    <key>LSRequiresIPhoneOS</key>\n    <true/>\n    <key>UILaunchScreen</key>\n    <dict/>\n</dict>\n</plist>\n"

/-- The Info.plist text for one application target: the fixed template with
the target's name substituted for `CFBundleExecutable` and `CFBundleName` and
its bundle id for `CFBundleIdentifier` (src/main.rs:416-445). -/
def infoPlistContent (t : TuistTarget) : String :=
  plistPart1 ++ t.name ++ plistPart2 ++ t.bundle_id ++ plistPart3 ++ t.name ++
    plistPart4

/-! ## File writes (`generate_bazel_files`, src/main.rs:213-244)

Writes are modelled as an ordered list of (path, content) pairs. -/

/-- Content of a written file: plain text, or a pretty-printed JSON document
(the graph snapshot; the external pretty printer is abstracted as the JSON
value it prints). -/
inductive FileContent where
  | text (s : String)
  | jsonPretty (j : Json)

/-- The manifest writes performed while generating one target's blocks
(src/main.rs:415-448): only application targets write an Info.plist, placed
at `<project_dir>/<name>-Info.plist`. -/
def targetManifests (project_dir : String) (t : TuistTarget) :
    List (String × FileContent) :=
  if t.product = "app" then
    [(pathJoin project_dir (t.name ++ "-Info.plist"),
      FileContent.text (infoPlistContent t))]
  else []

/-- All writes of `generate_build_file` for one project record
(src/main.rs:345-533): the per-target manifests in iteration order, then the
BUILD file at the fixed name inside `project_dir` — the directory the tool
was invoked on, not the record's own `path` field. -/
def projectWrites (project : TuistProject) (project_dir : String) :
    List (String × FileContent) :=
  (project.targets.flatMap (fun kv => targetManifests project_dir kv.2)) ++
    [(pathJoin project_dir "BUILD", FileContent.text (buildContent project))]

/-- The `WORKSPACE` bootstrap file content (src/main.rs:249-312). -/
def workspaceContent : String :=
  "workspace(name = \"catalyst_workspace\")\n\n# Load Apple rules for building iOS/macOS apps\nload(\"@bazel_tools//tools/build_defs/repo:http.bzl\", \"http_archive\")\n\nhttp_archive(\n    name = \"build_bazel_rules_apple\",\n    sha256 = \"b4df908ec14868369021182ab191dbd1f40830c9b300650d5dc389e0b9266c8d\",\n    url = \"https://github.com/bazelbuild/rules_apple/releases/download/3.5.1/rules_apple.3.5.1.tar.gz\",\n)\n\nload(\n    \"@build_bazel_rules_apple//apple:repositories.bzl\",\n    \"apple_rules_dependencies\",\n)\n\napple_rules_dependencies()\n\nload(\n    \"@build_bazel_rules_swift//swift:repositories.bzl\",\n    \"swift_rules_dependencies\",\n)\n\nswift_rules_dependencies()\n\nload(\n    \"@build_bazel_rules_swift//swift:extras.bzl\",\n    \"swift_rules_extra_dependencies\",\n)\n\nswift_rules_extra_dependencies()\n\nload(\n    \"@build_bazel_apple_support//lib:repositories.bzl\",\n    \"apple_support_dependencies\",\n)\n\napple_support_dependencies()\n\n# Optional: rules_xcodeproj for generating Xcode projects from Bazel targets\n# Uncomment the following to enable Xcode project generation:\n#\n# http_archive(\n#     name = \"com_github_buildbuddy_io_rules_xcodeproj\",\n#     sha256 = \"CHECK LATEST RELEASE\",\n#     url = \"https://github.com/MobileNativeFoundation/rules_xcodeproj/releases/download/VERSION/release.tar.gz\",\n# )\n#\n# load(\n#     \"@com_github_buildbuddy_io_rules_xcodeproj//xcodeproj:repositories.bzl\",\n#     \"xcodeproj_rules_dependencies\",\n# )\n#\n# xcodeproj_rules_dependencies()\n#\n# Then add to your BUILD file:\n# load(\"@com_github_buildbuddy_io_rules_xcodeproj//xcodeproj:defs.bzl\", \"xcodeproj\")\n#\n# xcodeproj(\n#     name = \"xcodeproj\",\n#     project_name = \"Fixture\",\n#     targets = [\":fixture\"],\n# )\n"

/-- The `.bazelrc` bootstrap file content (src/main.rs:324-336). -/
def bazelrcContent : String :=
  "# Build settings\nbuild --apple_platform_type=ios\nbuild --ios_minimum_os=15.0\n\n# Use Xcode toolchain\nbuild --apple_crosstool_top=@local_config_apple_cc//:toolchain\nbuild --crosstool_top=@local_config_apple_cc//:toolchain\nbuild --host_crosstool_top=@local_config_apple_cc//:toolchain\n\n# Output settings\nbuild --verbose_failures\nbuild --announce_rc\n"

/-- The per-project part of `generate_bazel_files` (src/main.rs:223-234):
walk the `projects` array in order, skip entries that are not JSON objects,
decode object entries as project records — a failed decode aborts with the
`context` message — and emit each record's writes in order. -/
def generateProjectsWrites (project_dir : String) :
    List Json → Except String (List (String × FileContent))
  | [] => .ok []
  | item :: rest =>
    if item.isObj then
      match decodeTuistProject item with
      | none => .error "Failed to parse project from graph"
      | some p => do
        let ws ← generateProjectsWrites project_dir rest
        .ok (projectWrites p project_dir ++ ws)
    else generateProjectsWrites project_dir rest

/-- All writes of `generate_bazel_files` (src/main.rs:213-244) in order:
the two fixed bootstrap files, the per-project manifest and BUILD writes,
and the graph snapshot in the cache directory. -/
def generate_bazel_files (graph : TuistGraph) (project_dir cache_dir : String) :
    Except String (List (String × FileContent)) :=
  let projWrites :=
    match graph.projects with
    | Json.arr items => generateProjectsWrites project_dir items
    | _ => Except.ok []
  match projWrites with
  | .error e => .error e
  | .ok ws =>
    .ok ([(pathJoin project_dir "WORKSPACE", FileContent.text workspaceContent),
          (pathJoin project_dir ".bazelrc", FileContent.text bazelrcContent)] ++
         ws ++
         [(pathJoin cache_dir "graph.json",
           FileContent.jsonPretty (serializeTuistGraph graph))])

/-! ## Target resolution (`find_app_target`, src/main.rs:551-577) -/

/-- The inner loop over one project's targets (src/main.rs:559-571): scan the
map entries in order; an entry whose product is `"app"` matches when there is
no hint, or when its key equals the hint case-insensitively; a match returns
the lower-cased key together with the bundle id. -/
def findInTargets (hint : Option String) :
    List (String × TuistTarget) → Option (String × String)
  | [] => none
  | (key, t) :: rest =>
    if t.product = "app" then
      match hint with
      | some h =>
        if lowerString key = lowerString h then some (lowerString key, t.bundle_id)
        else findInTargets hint rest
      | none => some (lowerString key, t.bundle_id)
    else findInTargets hint rest

/-- The outer loop of `find_app_target` over the `projects` array
(src/main.rs:553-574): skip non-object entries, decode object entries
(a failed decode aborts with the `context` message), and return the first
match; when the loop finishes without a match the function bails with
`"No app target found in project"`. -/
def findAppInItems (hint : Option String) :
    List Json → Except String (String × String)
  | [] => .error "No app target found in project"
  | item :: rest =>
    if item.isObj then
      match decodeTuistProject item with
      | none => .error "Failed to parse project from graph"
      | some p =>
        match findInTargets hint p.targets with
        | some r => .ok r
        | none => findAppInItems hint rest
    else findAppInItems hint rest

/-- `find_app_target` (src/main.rs:551-577). -/
def find_app_target (graph : TuistGraph) (hint : Option String) :
    Except String (String × String) :=
  match graph.projects with
  | Json.arr items => findAppInItems hint items
  | _ => .error "No app target found in project"

/-! ## Specification-side helpers

These are used to state the claims; they are not part of the embedding of the
source and are compared against it by the theorems below. -/

/-- Decode the project records of a `projects` array the way both loops of the
program enumerate them — skipping non-object entries, failing if any object
entry fails to decode. -/
def decodeItems : List Json → Option (List TuistProject)
  | [] => some []
  | item :: rest =>
    if item.isObj then do
      let p ← decodeTuistProject item
      let ps ← decodeItems rest
      some (p :: ps)
    else decodeItems rest

/-- Whether one `targets` entry matches the application-target search: the
product must be `"app"`, and the key must equal the hint case-insensitively
when a hint is given; a match yields the lower-cased key and the bundle id. -/
def appMatchEntry (hint : Option String) (kv : String × TuistTarget) :
    Option (String × String) :=
  if kv.2.product = "app" then
    match hint with
    | some h =>
      if lowerString kv.1 = lowerString h then some (lowerString kv.1, kv.2.bundle_id)
      else none
    | none => some (lowerString kv.1, kv.2.bundle_id)
  else none

/-- The flat first-match specification of target resolution: the first
matching entry of the concatenation of all project records' target
sequences, in traversal order. -/
def appTargetSearch (hint : Option String) (ps : List TuistProject) :
    Option (String × String) :=
  (ps.flatMap (fun p => p.targets)).findSome? (appMatchEntry hint)

/-- Package an optional search result the way `find_app_target` reports it. -/
def optionToResult (r : Option (String × String)) : Except String (String × String) :=
  match r with
  | some v => .ok v
  | none => .error "No app target found in project"

/-- Modelled from the claim's wording, not from the source: remove the fixed
suffix token `"Tests"` from a target name (leaving any other occurrence in
place).  Used to compare the claimed `test_host` derivation with the one the
code performs. -/
def stripSuffixTests (s : String) : String :=
  if endsWithStr s "Tests" then ⟨s.data.take (s.data.length - 5)⟩ else s

/-- The shape required of the top-level graph JSON for decoding to succeed:
an object with string fields `name` and `path` and any `projects` field. -/
def graphShapeOk (j : Json) : Prop :=
  ∃ fs, j = Json.obj fs ∧
    (∃ s, getField fs "name" = some (Json.str s)) ∧
    (∃ s, getField fs "path" = some (Json.str s)) ∧
    (getField fs "projects").isSome

/-! ## Shared lemmas -/

theorem foldl_append_eq_joinAll {α : Type} (f : α → String) (l : List α)
    (init : String) :
    l.foldl (fun acc x => acc ++ f x) init = init ++ joinAll (l.map f) := by
  induction l generalizing init with
  | nil => simp [joinAll, List.foldl, String.append_empty]
  | cons x xs ih =>
    have hjoin : joinAll (f x :: xs.map f) = f x ++ joinAll (xs.map f) := by
      show List.foldl (fun acc s => acc ++ s) ("" ++ f x) (xs.map f) = _
      rw [String.empty_append]
      have aux : ∀ (l : List String) (a b : String),
          l.foldl (fun acc s => acc ++ s) (a ++ b) =
            a ++ l.foldl (fun acc s => acc ++ s) b := by
        intro l
        induction l with
        | nil => intro a b; rfl
        | cons y ys ihy =>
          intro a b
          simp only [List.foldl]
          rw [String.append_assoc, ihy]
      have := aux (xs.map f) (f x) ""
      rw [String.append_empty] at this
      exact this
    simp only [List.foldl, List.map]
    rw [ih, hjoin, String.append_assoc]

theorem buildContent_eq (p : TuistProject) :
    buildContent p =
      loadPreamble ++ joinAll (p.targets.map (fun kv => renderTarget p.path kv.2)) := by
  unfold buildContent
  exact foldl_append_eq_joinAll _ _ _

theorem findInTargets_eq_findSome (hint : Option String)
    (l : List (String × TuistTarget)) :
    findInTargets hint l = l.findSome? (appMatchEntry hint) := by
  induction l with
  | nil => rfl
  | cons kv rest ih =>
    obtain ⟨key, t⟩ := kv
    simp only [findInTargets, List.findSome?, appMatchEntry]
    by_cases hp : t.product = "app"
    · simp only [hp, if_pos rfl]
      cases hint with
      | none => rfl
      | some h =>
        by_cases hm : lowerString key = lowerString h
        · simp [hm]
        · simp [hm, ih]
    · simp [hp, ih]

theorem findAppInItems_eq (hint : Option String) (items : List Json)
    (ps : List TuistProject) (hd : decodeItems items = some ps) :
    findAppInItems hint items = optionToResult (appTargetSearch hint ps) := by
  induction items generalizing ps with
  | nil =>
    simp only [decodeItems, Option.some.injEq] at hd
    subst hd
    rfl
  | cons item rest ih =>
    by_cases hobj : item.isObj
    · simp only [decodeItems, hobj, if_pos rfl] at hd
      cases hp : decodeTuistProject item with
      | none => rw [hp] at hd; simp at hd
      | some p =>
        rw [hp] at hd
        cases hrest : decodeItems rest with
        | none => rw [hrest] at hd; simp at hd
        | some tail =>
          rw [hrest] at hd
          simp only [Option.bind_eq_bind, Option.some_bind, if_true,
            Option.some.injEq] at hd
          subst hd
          simp only [findAppInItems, hobj, if_pos rfl, hp]
          rw [findInTargets_eq_findSome]
          unfold appTargetSearch
          rw [List.flatMap_cons, List.findSome?_append]
          cases hm : p.targets.findSome? (appMatchEntry hint) with
          | some r => simp [optionToResult]
          | none => simp only [Option.none_or]; exact ih tail hrest
    · simp only [decodeItems, hobj] at hd
      simp only [findAppInItems, hobj]
      simp only [Bool.false_eq_true, if_false] at hd ⊢
      exact ih ps hd

theorem generateProjectsWrites_eq (dir : String) (items : List Json)
    (ps : List TuistProject) (hd : decodeItems items = some ps) :
    generateProjectsWrites dir items =
      .ok (ps.flatMap (fun p => projectWrites p dir)) := by
  induction items generalizing ps with
  | nil =>
    simp only [decodeItems, Option.some.injEq] at hd
    subst hd
    rfl
  | cons item rest ih =>
    by_cases hobj : item.isObj
    · simp only [decodeItems, hobj, if_pos rfl] at hd
      cases hp : decodeTuistProject item with
      | none => rw [hp] at hd; simp at hd
      | some p =>
        rw [hp] at hd
        cases hrest : decodeItems rest with
        | none => rw [hrest] at hd; simp at hd
        | some tail =>
          rw [hrest] at hd
          simp only [Option.bind_eq_bind, Option.some_bind, if_true,
            Option.some.injEq] at hd
          subst hd
          simp only [generateProjectsWrites, hobj, if_pos rfl, hp]
          rw [ih tail hrest]
          simp only [List.flatMap_cons]
          rfl
    · simp only [decodeItems, hobj] at hd
      simp only [generateProjectsWrites, hobj]
      simp only [Bool.false_eq_true, if_false] at hd ⊢
      exact ih ps hd

theorem generateProjectsWrites_error (dir : String) (items : List Json)
    (h : ∃ bad ∈ items, bad.isObj = true ∧ decodeTuistProject bad = none) :
    generateProjectsWrites dir items = .error "Failed to parse project from graph" := by
  induction items with
  | nil => simp at h
  | cons item rest ih =>
    obtain ⟨bad, hmem, hobj, hdec⟩ := h
    rcases List.mem_cons.mp hmem with heq | hmem'
    · subst heq
      simp [generateProjectsWrites, hobj, hdec]
    · by_cases hio : item.isObj
      · cases hp : decodeTuistProject item with
        | none => simp [generateProjectsWrites, hio, hp]
        | some p =>
          simp only [generateProjectsWrites, hio, if_pos rfl, hp]
          rw [ih ⟨bad, hmem', hobj, hdec⟩]
          rfl
      · simp only [generateProjectsWrites, hio, Bool.false_eq_true, if_false]
        exact ih ⟨bad, hmem', hobj, hdec⟩

theorem generateProjectsWrites_no_objects (dir : String) (items : List Json)
    (h : ∀ x ∈ items, x.isObj = false) :
    generateProjectsWrites dir items = .ok [] := by
  induction items with
  | nil => rfl
  | cons item rest ih =>
    have hio := h item (List.mem_cons_self item rest)
    simp only [generateProjectsWrites, hio, Bool.false_eq_true, if_false]
    exact ih (fun x hx => h x (List.mem_cons_of_mem item hx))

theorem findAppInItems_append_of_none (hint : Option String) (pre rest : List Json)
    (ps : List TuistProject) (hd : decodeItems pre = some ps)
    (hs : appTargetSearch hint ps = none) :
    findAppInItems hint (pre ++ rest) = findAppInItems hint rest := by
  induction pre generalizing ps with
  | nil =>
    simp only [decodeItems, Option.some.injEq] at hd
    simp
  | cons item tail ih =>
    by_cases hobj : item.isObj
    · simp only [decodeItems, hobj, if_pos rfl] at hd
      cases hp : decodeTuistProject item with
      | none => rw [hp] at hd; simp at hd
      | some p =>
        rw [hp] at hd
        cases hrest : decodeItems tail with
        | none => rw [hrest] at hd; simp at hd
        | some ps' =>
          rw [hrest] at hd
          simp only [Option.bind_eq_bind, Option.some_bind, if_true,
            Option.some.injEq] at hd
          subst hd
          unfold appTargetSearch at hs
          rw [List.flatMap_cons, List.findSome?_append] at hs
          cases hm : p.targets.findSome? (appMatchEntry hint) with
          | some r => rw [hm] at hs; simp at hs
          | none =>
            rw [hm] at hs
            simp only [Option.none_or] at hs
            simp only [List.cons_append, findAppInItems, hobj, if_pos rfl, hp]
            rw [findInTargets_eq_findSome, hm]
            exact ih ps' hrest hs
    · simp only [decodeItems, hobj] at hd
      simp only [Bool.false_eq_true, if_false] at hd
      simp only [List.cons_append, findAppInItems, hobj, Bool.false_eq_true, if_false]
      exact ih ps hd hs

theorem pathJoin_decomp (a b : String) : ∃ pre, pathJoin a b = pre ++ b := by
  unfold pathJoin
  split_ifs
  · exact ⟨"", (String.empty_append b).symm⟩
  · exact ⟨"", (String.empty_append b).symm⟩
  · exact ⟨a, rfl⟩
  · exact ⟨a ++ "/", rfl⟩

theorem string_ne_of_getLast_ne {s t : String} {c d : Char}
    (hc : s.data.getLast? = some c) (hd : t.data.getLast? = some d)
    (hne : c ≠ d) : s ≠ t := by
  intro h
  rw [h, hd] at hc
  exact hne (Option.some.inj hc).symm

theorem manifest_path_ne_build_path (a b x : String) :
    pathJoin a (x ++ "-Info.plist") ≠ pathJoin b "BUILD" := by
  obtain ⟨p1, h1⟩ := pathJoin_decomp a (x ++ "-Info.plist")
  obtain ⟨p2, h2⟩ := pathJoin_decomp b "BUILD"
  rw [h1, h2]
  have hlast1 : "-Info.plist".data.getLast? = some 't' := by decide
  have hlast2 : "BUILD".data.getLast? = some 'D' := by decide
  apply string_ne_of_getLast_ne (c := 't') (d := 'D')
  · rw [String.data_append, String.data_append, List.getLast?_append,
      List.getLast?_append, hlast1]
    rfl
  · rw [String.data_append, List.getLast?_append, hlast2]
    rfl
  · decide

theorem count_build_projectWrites (p : TuistProject) (dir : String) :
    ((projectWrites p dir).map Prod.fst).count (pathJoin dir "BUILD") = 1 := by
  unfold projectWrites
  rw [List.map_append, List.count_append]
  have hzero : ((p.targets.flatMap (fun kv => targetManifests dir kv.2)).map
      Prod.fst).count (pathJoin dir "BUILD") = 0 := by
    rw [List.count_eq_zero]
    intro hmem
    rw [List.mem_map] at hmem
    obtain ⟨w, hw, hfst⟩ := hmem
    rw [List.mem_flatMap] at hw
    obtain ⟨kv, _, hwm⟩ := hw
    unfold targetManifests at hwm
    by_cases hp : kv.2.product = "app"
    · rw [if_pos hp] at hwm
      simp only [List.mem_singleton] at hwm
      subst hwm
      exact manifest_path_ne_build_path dir dir kv.2.name hfst
    · rw [if_neg hp] at hwm
      simp at hwm
  rw [hzero]
  simp

theorem count_build_flatMap (ps : List TuistProject) (dir : String) :
    ((ps.flatMap (fun p => projectWrites p dir)).map Prod.fst).count
      (pathJoin dir "BUILD") = ps.length := by
  induction ps with
  | nil => rfl
  | cons p rest ih =>
    rw [List.flatMap_cons, List.map_append, List.count_append, ih,
      count_build_projectWrites]
    simp [Nat.add_comm]

set_option maxRecDepth 8192

/-! ## Concrete inputs used by witnesses and counterexamples -/

/-- An application target with one resolved Swift source. -/
def exAppTarget : TuistTarget :=
  ⟨"App", "app", "com.x.app", [⟨"/p/Sources", [⟨"/p/Sources/Main.swift"⟩]⟩], []⟩

/-- Two library targets distinguishing map iteration orders. -/
def c3TargetA : TuistTarget := ⟨"Alpha", "framework", "id.a", [], []⟩

/-- Second library target for the order-sensitivity counterexample. -/
def c3TargetB : TuistTarget := ⟨"Beta", "framework", "id.b", [], []⟩

/-- A project whose targets map iterates `Alpha` before `Beta`. -/
def c3Proj1 : TuistProject :=
  ⟨"P", "/p", [("Alpha", c3TargetA), ("Beta", c3TargetB)]⟩

/-- The same targets mapping with the opposite iteration order. -/
def c3Proj2 : TuistProject :=
  ⟨"P", "/p", [("Beta", c3TargetB), ("Alpha", c3TargetA)]⟩

/-- `c3Proj1` with a different project name (the name is irrelevant to
synthesis). -/
def c3Proj1Renamed : TuistProject := ⟨"Q", "/p", c3Proj1.targets⟩

/-- A project record whose own `path` differs from the invocation directory. -/
def c2BadProjJson : Json :=
  Json.obj [("name", Json.str "Other"), ("path", Json.str "/other"),
    ("targets", Json.obj [])]

/-- A graph whose only project record lives at `/other` while the tool is
invoked on `/cli`. -/
def c2BadGraph : TuistGraph :=
  ⟨"G", "/cli", Json.arr [Json.str "/other", c2BadProjJson]⟩

/-- JSON form of `exAppTarget`. -/
def exAppTargetJson : Json :=
  Json.obj [("name", Json.str "App"), ("product", Json.str "app"),
    ("bundleId", Json.str "com.x.app"),
    ("buildableFolders", Json.arr
      [Json.obj [("path", Json.str "/p/Sources"),
        ("resolvedFiles", Json.arr
          [Json.obj [("path", Json.str "/p/Sources/Main.swift")]])]]),
    ("dependencies", Json.arr [])]

/-- JSON form of the single-target example project. -/
def exProjJson : Json :=
  Json.obj [("name", Json.str "P"), ("path", Json.str "/p"),
    ("targets", Json.obj [("App", exAppTargetJson)])]

/-- The decoded example project. -/
def exProj : TuistProject := ⟨"P", "/p", [("App", exAppTarget)]⟩

/-- A graph holding the example project (preceded by a path-string entry, as
Tuist emits). -/
def exGraph : TuistGraph := ⟨"G", "/p", Json.arr [Json.str "/p", exProjJson]⟩

/-! ## Claim C1 -/

/-- Claim C1: for every target whose product kind is application, the blocks
synthesized for that target (whose rendering by `renderBlock` is exactly the
emitted rule-file text) are exactly one library block named
`lower(name) ++ "_lib"` over the classified source files and one
application-bundle block named `lower(name)` with `deps`
`[":" ++ lower(name) ++ "_lib"]`, the bundle identifier, the fixed minimum
platform version `15.0`, the fixed device-family list, and the manifest
reference `name ++ "-Info.plist"`; the manifest is written from the same
target record with the same name and bundle id substituted into the fixed
template. -/
theorem c1_application_rule_blocks (dir projPath : String) (t : TuistTarget)
    (h : t.product = "app") :
    targetBlocks projPath t =
      [RuleBlock.swiftLibrary (lowerString t.name ++ "_lib")
          (srcsAttrOf (classify projPath t.buildable_folders).1
            "Fixture/Sources/**/*.swift") t.name false (depsOf t),
        RuleBlock.iosApplication (lowerString t.name) t.bundle_id
          ["iphone", "ipad"] [t.name ++ "-Info.plist"] "15.0"
          [quoteStr (":" ++ lowerString t.name ++ "_lib")]] ∧
    (targetBlocks projPath t).countP RuleBlock.isSwiftLibrary = 1 ∧
    (targetBlocks projPath t).countP RuleBlock.isIosApplication = 1 ∧
    targetManifests dir t =
      [(pathJoin dir (t.name ++ "-Info.plist"),
        FileContent.text (infoPlistContent t))] ∧
    infoPlistContent t =
      plistPart1 ++ t.name ++ plistPart2 ++ t.bundle_id ++ plistPart3 ++
        t.name ++ plistPart4 := by
  have hb : targetBlocks projPath t =
      [RuleBlock.swiftLibrary (lowerString t.name ++ "_lib")
          (srcsAttrOf (classify projPath t.buildable_folders).1
            "Fixture/Sources/**/*.swift") t.name false (depsOf t),
        RuleBlock.iosApplication (lowerString t.name) t.bundle_id
          ["iphone", "ipad"] [t.name ++ "-Info.plist"] "15.0"
          [quoteStr (":" ++ lowerString t.name ++ "_lib")]] := by
    simp [targetBlocks, h]
  refine ⟨hb, ?_, ?_, ?_, rfl⟩
  · rw [hb]; rfl
  · rw [hb]; rfl
  · simp [targetManifests, h]

/-- Witness for C1 at the concrete single-source application target. -/
theorem c1_application_rule_blocks_witness :
    targetBlocks "/p" exAppTarget =
      [RuleBlock.swiftLibrary (lowerString exAppTarget.name ++ "_lib")
          (srcsAttrOf (classify "/p" exAppTarget.buildable_folders).1
            "Fixture/Sources/**/*.swift") exAppTarget.name false
          (depsOf exAppTarget),
        RuleBlock.iosApplication (lowerString exAppTarget.name)
          exAppTarget.bundle_id ["iphone", "ipad"]
          [exAppTarget.name ++ "-Info.plist"] "15.0"
          [quoteStr (":" ++ lowerString exAppTarget.name ++ "_lib")]] ∧
    (targetBlocks "/p" exAppTarget).countP RuleBlock.isSwiftLibrary = 1 ∧
    (targetBlocks "/p" exAppTarget).countP RuleBlock.isIosApplication = 1 ∧
    targetManifests "/p" exAppTarget =
      [(pathJoin "/p" (exAppTarget.name ++ "-Info.plist"),
        FileContent.text (infoPlistContent exAppTarget))] ∧
    infoPlistContent exAppTarget =
      plistPart1 ++ exAppTarget.name ++ plistPart2 ++ exAppTarget.bundle_id ++
        plistPart3 ++ exAppTarget.name ++ plistPart4 :=
  c1_application_rule_blocks "/p" "/p" exAppTarget rfl

/-! ## Claim C2 -/

/-- Counterexample to claim C2 as stated: the graph's only project record has
path `/other`, yet the rule file is written to `/cli/BUILD` — the directory
the tool was invoked on — and no write ever targets `/other/BUILD`. -/
theorem c2_build_location_counterexample :
    decodeTuistProject c2BadProjJson = some ⟨"Other", "/other", []⟩ ∧
    (generate_bazel_files c2BadGraph "/cli" "/cache").toOption.map
        (fun ws => ws.map Prod.fst) =
      some ["/cli/WORKSPACE", "/cli/.bazelrc", "/cli/BUILD", "/cache/graph.json"] ∧
    "/other/BUILD" ∉
      ((generate_bazel_files c2BadGraph "/cli" "/cache").toOption.getD []).map
        Prod.fst :=
  ⟨rfl, rfl, by decide⟩

/-- Claim C2 (amended): for every project record enumerated from the graph's
projects sequence, synthesis emits exactly one rule-file write per record,
each carrying the complete freshly generated text, but always at the fixed
filename `BUILD` inside the directory the tool was invoked on — not inside
the directory named by the record's own `path` field, so all records of one
run share a single output path. -/
theorem c2_one_rule_file_per_record (g : TuistGraph) (dir cache : String)
    (items : List Json) (ps : List TuistProject)
    (hg : g.projects = Json.arr items) (hd : decodeItems items = some ps) :
    generate_bazel_files g dir cache =
      .ok ([(pathJoin dir "WORKSPACE", FileContent.text workspaceContent),
            (pathJoin dir ".bazelrc", FileContent.text bazelrcContent)] ++
           ps.flatMap (fun p => projectWrites p dir) ++
           [(pathJoin cache "graph.json",
             FileContent.jsonPretty (serializeTuistGraph g))]) ∧
    ((ps.flatMap (fun p => projectWrites p dir)).map Prod.fst).count
        (pathJoin dir "BUILD") = ps.length ∧
    ∀ p ∈ ps,
      (pathJoin dir "BUILD", FileContent.text (buildContent p)) ∈
        ps.flatMap (fun p => projectWrites p dir) := by
  refine ⟨?_, count_build_flatMap ps dir, ?_⟩
  · have hmain := generateProjectsWrites_eq dir items ps hd
    unfold generate_bazel_files
    rw [hg]
    simp only [hmain]
  · intro p hp
    rw [List.mem_flatMap]
    refine ⟨p, hp, ?_⟩
    unfold projectWrites
    exact List.mem_append_right _ (List.mem_singleton.mpr rfl)

/-- Witness for C2 (amended) at the concrete one-project graph. -/
theorem c2_one_rule_file_per_record_witness :
    generate_bazel_files exGraph "/p" "/cache" =
      .ok ([(pathJoin "/p" "WORKSPACE", FileContent.text workspaceContent),
            (pathJoin "/p" ".bazelrc", FileContent.text bazelrcContent)] ++
           [exProj].flatMap (fun p => projectWrites p "/p") ++
           [(pathJoin "/cache" "graph.json",
             FileContent.jsonPretty (serializeTuistGraph exGraph))]) ∧
    (([exProj].flatMap (fun p => projectWrites p "/p")).map Prod.fst).count
        (pathJoin "/p" "BUILD") = [exProj].length ∧
    ∀ p ∈ [exProj],
      (pathJoin "/p" "BUILD", FileContent.text (buildContent p)) ∈
        [exProj].flatMap (fun p => projectWrites p "/p") :=
  c2_one_rule_file_per_record exGraph "/p" "/cache"
    [Json.str "/p", exProjJson] [exProj] rfl rfl

/-! ## Claim C3 -/

/-- Counterexample to claim C3 as stated: two project records carrying the
same targets mapping (the entry lists are permutations of each other), same
name and same path, yet the synthesized rule-file text differs because the
blocks are emitted in map iteration order, which is not normalized. -/
theorem c3_order_sensitivity_counterexample :
    c3Proj1.targets.Perm c3Proj2.targets ∧
    c3Proj1.name = c3Proj2.name ∧ c3Proj1.path = c3Proj2.path ∧
    buildContent c3Proj1 ≠ buildContent c3Proj2 :=
  ⟨List.Perm.swap _ _ _, rfl, rfl, by decide⟩

/-- Claim C3 (amended): rule synthesis is pure and deterministic as a
function of the project's path and its targets sequence in iteration order —
it does not depend on the project name, and the output text is exactly the
fixed preamble followed by each target's rendered blocks in that order.  It
is not invariant under permutation of the targets map's iteration order. -/
theorem c3_deterministic_given_order (p q : TuistProject)
    (hpath : p.path = q.path) (ht : p.targets = q.targets) :
    buildContent p = buildContent q ∧
    buildContent p =
      loadPreamble ++ joinAll (p.targets.map (fun kv => renderTarget p.path kv.2)) := by
  constructor
  · unfold buildContent
    rw [hpath, ht]
  · exact buildContent_eq p

/-- Witness for C3 (amended): two records equal up to the project name have
identical output. -/
theorem c3_deterministic_given_order_witness :
    buildContent c3Proj1 = buildContent c3Proj1Renamed ∧
    buildContent c3Proj1 =
      loadPreamble ++
        joinAll (c3Proj1.targets.map (fun kv => renderTarget c3Proj1.path kv.2)) :=
  c3_deterministic_given_order c3Proj1 c3Proj1Renamed rfl rfl

/-! ## Claim C4 -/

/-- Claim C4: file classification — a `.swift` file becomes a source entry, a
file with one of the fixed resource extensions becomes a resource entry, a
file with any other extension or none is discarded; retained paths are
rewritten relative to the project path, and a file not under the project path
is silently dropped (the relative rewrite yields nothing) rather than being
an error; including the three concrete cases of the specification. -/
theorem c4_file_classification (projPath fPath fdir : String) :
    (pathExtension fPath = some "swift" →
      classify projPath [⟨fdir, [⟨fPath⟩]⟩] =
        ((pathRelativeTo fPath projPath).elim [] (fun r => [quoteStr r]), [])) ∧
    ((pathExtension fPath = some "xcassets" ∨
        pathExtension fPath = some "storyboard" ∨
        pathExtension fPath = some "xib") →
      classify projPath [⟨fdir, [⟨fPath⟩]⟩] =
        ([], (pathRelativeTo fPath projPath).elim [] (fun r => [quoteStr r]))) ∧
    (pathExtension fPath = none →
      classify projPath [⟨fdir, [⟨fPath⟩]⟩] = ([], [])) ∧
    (∀ e, pathExtension fPath = some e → e ≠ "swift" → e ≠ "xcassets" →
      e ≠ "storyboard" → e ≠ "xib" →
      classify projPath [⟨fdir, [⟨fPath⟩]⟩] = ([], [])) ∧
    classify "/proj" [⟨"/proj", [⟨"/proj/Sources/A.swift"⟩]⟩] =
      ([quoteStr "Sources/A.swift"], []) ∧
    classify "/proj" [⟨"/proj", [⟨"/other/B.swift"⟩]⟩] = ([], []) ∧
    classify "/proj" [⟨"/proj", [⟨"/proj/Assets.xcassets"⟩]⟩] =
      ([], [quoteStr "Assets.xcassets"]) := by
  refine ⟨?_, ?_, ?_, ?_, by decide, by decide, by decide⟩
  · intro h
    simp only [classify, List.foldl, h]
    cases hrel : pathRelativeTo fPath projPath with
    | some rel => simp [hrel]
    | none => simp [hrel]
  · intro h
    rcases h with h | h | h <;>
    · simp only [classify, List.foldl, h]
      cases hrel : pathRelativeTo fPath projPath with
      | some rel => simp [hrel]
      | none => simp [hrel]
  · intro h
    simp [classify, List.foldl, h]
  · intro e he h1 h2 h3 h4
    simp [classify, List.foldl, he, h1, h2, h3, h4]

/-- Witness for C4: the swift-source case at the specification's concrete
input. -/
theorem c4_file_classification_witness :
    classify "/proj" [⟨"/proj", [⟨"/proj/Sources/A.swift"⟩]⟩] =
      ((pathRelativeTo "/proj/Sources/A.swift" "/proj").elim []
        (fun r => [quoteStr r]), []) :=
  (c4_file_classification "/proj" "/proj/Sources/A.swift" "/proj").1 rfl

/-! ## Claim C5 -/

/-- Claim C5: graph decoding succeeds exactly when the top-level shape
matches (an object with string `name` and `path` and a present `projects`
field) — in particular it never fails because a `projects` entry is a plain
path string — and a graph whose `projects` sequence holds only non-object
entries synthesizes zero rule files without error: the only writes are the
two bootstrap files and the cache snapshot. -/
theorem c5_decode_tolerance :
    (∀ j : Json, (decodeTuistGraph j).isSome ↔ graphShapeOk j) ∧
    (∀ (g : TuistGraph) (dir cache : String) (items : List Json),
      g.projects = Json.arr items → (∀ x ∈ items, x.isObj = false) →
      generate_bazel_files g dir cache =
        .ok [(pathJoin dir "WORKSPACE", FileContent.text workspaceContent),
             (pathJoin dir ".bazelrc", FileContent.text bazelrcContent),
             (pathJoin cache "graph.json",
               FileContent.jsonPretty (serializeTuistGraph g))]) := by
  constructor
  · intro j
    constructor
    · intro h
      cases j with
      | obj fs =>
        cases hn : getField fs "name" with
        | none => simp [decodeTuistGraph, hn] at h
        | some vn =>
          cases vn with
          | str n =>
            cases hp : getField fs "path" with
            | none => simp [decodeTuistGraph, hn, hp, Json.asString] at h
            | some vp =>
              cases vp with
              | str p =>
                cases hq : getField fs "projects" with
                | none => simp [decodeTuistGraph, hn, hp, hq, Json.asString] at h
                | some vq =>
                  exact ⟨fs, rfl, ⟨n, hn⟩, ⟨p, hp⟩, by rw [hq]; rfl⟩
              | null => simp [decodeTuistGraph, hn, hp, Json.asString] at h
              | bool b => simp [decodeTuistGraph, hn, hp, Json.asString] at h
              | num m => simp [decodeTuistGraph, hn, hp, Json.asString] at h
              | arr xs => simp [decodeTuistGraph, hn, hp, Json.asString] at h
              | obj gs => simp [decodeTuistGraph, hn, hp, Json.asString] at h
          | null => simp [decodeTuistGraph, hn, Json.asString] at h
          | bool b => simp [decodeTuistGraph, hn, Json.asString] at h
          | num m => simp [decodeTuistGraph, hn, Json.asString] at h
          | arr xs => simp [decodeTuistGraph, hn, Json.asString] at h
          | obj gs => simp [decodeTuistGraph, hn, Json.asString] at h
      | null => simp [decodeTuistGraph] at h
      | bool b => simp [decodeTuistGraph] at h
      | num m => simp [decodeTuistGraph] at h
      | str s => simp [decodeTuistGraph] at h
      | arr xs => simp [decodeTuistGraph] at h
    · rintro ⟨fs, rfl, ⟨n, hn⟩, ⟨p, hp⟩, hpr⟩
      cases hq : getField fs "projects" with
      | none => rw [hq] at hpr; simp at hpr
      | some v => simp [decodeTuistGraph, hn, hp, hq, Json.asString]
  · intro g dir cache items hg hno
    unfold generate_bazel_files
    rw [hg]
    simp only [generateProjectsWrites_no_objects dir items hno]
    rfl

/-- Witness for C5: a well-shaped graph JSON decodes, and a graph whose
`projects` array holds only a path string synthesizes only the three
non-rule files. -/
theorem c5_decode_tolerance_witness :
    ((decodeTuistGraph (Json.obj [("name", Json.str "G"), ("path", Json.str "/p"),
        ("projects", Json.arr [Json.str "/p"])])).isSome ↔
      graphShapeOk (Json.obj [("name", Json.str "G"), ("path", Json.str "/p"),
        ("projects", Json.arr [Json.str "/p"])])) ∧
    generate_bazel_files ⟨"G", "/p", Json.arr [Json.str "/p"]⟩ "/p" "/c" =
      .ok [(pathJoin "/p" "WORKSPACE", FileContent.text workspaceContent),
           (pathJoin "/p" ".bazelrc", FileContent.text bazelrcContent),
           (pathJoin "/c" "graph.json",
             FileContent.jsonPretty
               (serializeTuistGraph ⟨"G", "/p", Json.arr [Json.str "/p"]⟩))] :=
  ⟨c5_decode_tolerance.1 _,
   c5_decode_tolerance.2 ⟨"G", "/p", Json.arr [Json.str "/p"]⟩ "/p" "/c"
     [Json.str "/p"] rfl (by intro x hx; simp at hx; rw [hx]; rfl)⟩

/-! ## Claim C6 -/

/-- The concrete unit-test target refuting the suffix-stripping reading. -/
def c6CexTarget : TuistTarget := ⟨"TestsFoo", "unit_tests", "id.t", [], []⟩

/-- A conventionally named unit-test target. -/
def c6FooTarget : TuistTarget := ⟨"FooTests", "unit_tests", "id.f", [], []⟩

/-- Counterexample to claim C6 as stated: for the unit-test target named
`"TestsFoo"` the emitted `test_host` is `":foo"` — the code removes every
occurrence of `"Tests"` — whereas stripping the fixed suffix token would
leave the name unchanged and yield `":testsfoo"`. -/
theorem c6_test_host_counterexample :
    (targetBlocks "/p" c6CexTarget)[1]? =
      some (RuleBlock.iosUnitTest "testsfoo" "id.t" "15.0" ":foo"
        [quoteStr ":testsfoo_lib"]) ∧
    ":foo" ≠ ":" ++ lowerString (stripSuffixTests "TestsFoo") :=
  ⟨rfl, by decide⟩

/-- Claim C6 (amended): for every target whose product kind is `unit_tests`,
synthesis emits the library block with the `testonly` flag set and a
test-bundle block whose `test_host` is `":"` followed by the lower-casing of
the target name with every occurrence of `"Tests"` removed; when `"Tests"`
occurs only as the final suffix — e.g. the name `"FooTests"` — this coincides
with stripping the suffix and yields `":foo"`. -/
theorem c6_unit_test_rule_blocks (projPath : String) (t : TuistTarget)
    (h : t.product = "unit_tests") :
    targetBlocks projPath t =
      [RuleBlock.swiftLibrary (lowerString t.name ++ "_lib")
          (srcsAttrOf (classify projPath t.buildable_folders).1
            "Fixture/Tests/**/*.swift") t.name true (depsOf t),
        RuleBlock.iosUnitTest (lowerString t.name) t.bundle_id "15.0"
          (":" ++ lowerString (replaceStr t.name "Tests" ""))
          [quoteStr (":" ++ lowerString t.name ++ "_lib")]] ∧
    (t.name = "FooTests" →
      ":" ++ lowerString (replaceStr t.name "Tests" "") = ":foo") := by
  constructor
  · simp [targetBlocks, h]
  · intro hn
    rw [hn]
    rfl

/-- Witness for C6 (amended) at the target named `FooTests`. -/
theorem c6_unit_test_rule_blocks_witness :
    targetBlocks "/p" c6FooTarget =
      [RuleBlock.swiftLibrary (lowerString c6FooTarget.name ++ "_lib")
          (srcsAttrOf (classify "/p" c6FooTarget.buildable_folders).1
            "Fixture/Tests/**/*.swift") c6FooTarget.name true
          (depsOf c6FooTarget),
        RuleBlock.iosUnitTest (lowerString c6FooTarget.name)
          c6FooTarget.bundle_id "15.0"
          (":" ++ lowerString (replaceStr c6FooTarget.name "Tests" ""))
          [quoteStr (":" ++ lowerString c6FooTarget.name ++ "_lib")]] ∧
    (c6FooTarget.name = "FooTests" →
      ":" ++ lowerString (replaceStr c6FooTarget.name "Tests" "") = ":foo") :=
  c6_unit_test_rule_blocks "/p" c6FooTarget rfl

/-! ## Claim C7 -/

/-- First of two application targets used by the resolution witness. -/
def c7Target1 : TuistTarget := ⟨"App1", "app", "id.1", [], []⟩

/-- Second application target used by the resolution witness. -/
def c7Target2 : TuistTarget := ⟨"App2", "app", "id.2", [], []⟩

/-- A project carrying the two application targets in a fixed order. -/
def c7Proj : TuistProject :=
  ⟨"P", "/p", [("App1", c7Target1), ("App2", c7Target2)]⟩

/-- JSON form of one bare application target. -/
def c7Target1Json : Json :=
  Json.obj [("name", Json.str "App1"), ("product", Json.str "app"),
    ("bundleId", Json.str "id.1"), ("buildableFolders", Json.arr []),
    ("dependencies", Json.arr [])]

/-- JSON form of the second bare application target. -/
def c7Target2Json : Json :=
  Json.obj [("name", Json.str "App2"), ("product", Json.str "app"),
    ("bundleId", Json.str "id.2"), ("buildableFolders", Json.arr []),
    ("dependencies", Json.arr [])]

/-- JSON form of the two-application project. -/
def c7ProjJson : Json :=
  Json.obj [("name", Json.str "P"), ("path", Json.str "/p"),
    ("targets", Json.obj [("App1", c7Target1Json), ("App2", c7Target2Json)])]

/-- A graph carrying the two-application project. -/
def c7Graph : TuistGraph := ⟨"G", "/p", Json.arr [Json.str "/p", c7ProjJson]⟩

/-- Claim C7: `find_app_target` scans project records in graph order and
targets in map order, and equals the flat first-match search: with no hint
the first entry whose product is `"app"` wins (deterministically for a fixed
input ordering) and its lower-cased key and bundle id are returned; with a
hint the match additionally requires case-insensitive equality with the
entry's key; when nothing matches the result is the `NotFound`-style error. -/
theorem c7_find_app_target_first_match (g : TuistGraph) (hint : Option String)
    (items : List Json) (ps : List TuistProject)
    (hg : g.projects = Json.arr items) (hd : decodeItems items = some ps) :
    find_app_target g hint = optionToResult (appTargetSearch hint ps) := by
  unfold find_app_target
  rw [hg]
  exact findAppInItems_eq hint items ps hd

/-- Witness for C7: with two application targets and no hint, resolution
returns the first target in traversal order. -/
theorem c7_find_app_target_first_match_witness :
    find_app_target c7Graph none = optionToResult (appTargetSearch none [c7Proj]) ∧
    optionToResult (appTargetSearch none [c7Proj]) = .ok ("app1", "id.1") :=
  ⟨c7_find_app_target_first_match c7Graph none [Json.str "/p", c7ProjJson]
      [c7Proj] rfl rfl, rfl⟩

/-! ## Claim C8 -/

/-- A decodable graph JSON used by the round-trip witness. -/
def c8Json : Json :=
  Json.obj [("name", Json.str "G"), ("path", Json.str "/p"),
    ("projects", Json.arr [Json.str "/p", c7ProjJson])]

/-- Claim C8: for every successfully decoded graph, serializing it to the
persisted snapshot and decoding that snapshot again yields a structurally
equal graph — decode after serialize is the identity on decoded graphs. -/
theorem c8_snapshot_roundtrip (j : Json) (g : TuistGraph)
    (h : decodeTuistGraph j = some g) :
    decodeTuistGraph (serializeTuistGraph g) = some g := by
  cases g with
  | mk name path projects => rfl

/-- Witness for C8 at a concrete decoded graph. -/
theorem c8_snapshot_roundtrip_witness :
    decodeTuistGraph
        (serializeTuistGraph ⟨"G", "/p", Json.arr [Json.str "/p", c7ProjJson]⟩) =
      some ⟨"G", "/p", Json.arr [Json.str "/p", c7ProjJson]⟩ :=
  c8_snapshot_roundtrip c8Json ⟨"G", "/p", Json.arr [Json.str "/p", c7ProjJson]⟩ rfl

/-! ## Claim C9 -/

/-- A JSON object that is not a valid project record (missing `path` and
`targets`). -/
def c9BadObj : Json := Json.obj [("name", Json.str "Broken")]

/-- A graph whose projects array holds a good project followed by a
malformed object entry. -/
def c9Graph : TuistGraph := ⟨"G", "/p", Json.arr [c7ProjJson, c9BadObj]⟩

/-- Counterexample to claim C9 as stated: with a malformed object entry after
a project carrying an application target, rule synthesis aborts with the
parse error, but target resolution returns the earlier match and does not
abort — so it is not the case that both operations fail whenever such an
entry exists. -/
theorem c9_malformed_entry_counterexample :
    c9BadObj.isObj = true ∧
    decodeTuistProject c9BadObj = none ∧
    find_app_target c9Graph none = .ok ("app1", "id.1") ∧
    generate_bazel_files c9Graph "/p" "/c" =
      .error "Failed to parse project from graph" :=
  ⟨rfl, rfl, rfl, rfl⟩

/-- Claim C9 (amended): a malformed object entry in the projects sequence is
fatal to rule synthesis — `generate_bazel_files` always aborts with the parse
error — and fatal to target resolution whenever the entries before it yield
no match; only non-object entries are skipped.  (Target resolution returns
early and never reaches a malformed entry that follows the first match.) -/
theorem c9_malformed_entry_fatal (g : TuistGraph) (dir cache : String)
    (hint : Option String) (pre post : List Json) (bad : Json)
    (ps : List TuistProject)
    (hg : g.projects = Json.arr (pre ++ bad :: post))
    (hbad : bad.isObj = true) (hdec : decodeTuistProject bad = none) :
    generate_bazel_files g dir cache =
      .error "Failed to parse project from graph" ∧
    (decodeItems pre = some ps → appTargetSearch hint ps = none →
      find_app_target g hint = .error "Failed to parse project from graph") := by
  constructor
  · unfold generate_bazel_files
    rw [hg]
    simp only [generateProjectsWrites_error dir (pre ++ bad :: post)
      ⟨bad, by simp, hbad, hdec⟩]
  · intro hpre hs
    unfold find_app_target
    rw [hg]
    show findAppInItems hint (pre ++ bad :: post) =
      Except.error "Failed to parse project from graph"
    rw [findAppInItems_append_of_none hint pre (bad :: post) ps hpre hs]
    simp [findAppInItems, hbad, hdec]

/-- Witness for C9 (amended): a graph holding only the malformed object. -/
theorem c9_malformed_entry_fatal_witness :
    generate_bazel_files ⟨"G", "/p", Json.arr [c9BadObj]⟩ "/p" "/c" =
      .error "Failed to parse project from graph" ∧
    (decodeItems [] = some [] → appTargetSearch none [] = none →
      find_app_target ⟨"G", "/p", Json.arr [c9BadObj]⟩ none =
        .error "Failed to parse project from graph") :=
  c9_malformed_entry_fatal ⟨"G", "/p", Json.arr [c9BadObj]⟩ "/p" "/c" none
    [] [] c9BadObj [] rfl rfl rfl

/-! ## Claim C10 -/

/-- A library-kind target with no buildable folders. -/
def c10LibTarget : TuistTarget := ⟨"Lib", "framework", "id.l", [], []⟩

/-- An application target with no buildable folders. -/
def c10AppTarget : TuistTarget := ⟨"Bare", "app", "id.b", [], []⟩

/-- Claim C10: for every target with zero classified source files, the
emitted `srcs` attribute of the library block is a hard-coded glob that
depends only on the product kind — `Fixture/Sources/**/*.swift` for
applications, `Fixture/Tests/**/*.swift` for unit tests, and
`Sources/**/*.swift` for everything else — never on the target name or the
project record. -/
theorem c10_glob_fallback (projPath : String) (t : TuistTarget)
    (h : (classify projPath t.buildable_folders).1 = []) :
    (t.product = "app" →
      (targetBlocks projPath t).head?.bind RuleBlock.srcsAttr =
        some (SrcsAttr.globPattern "Fixture/Sources/**/*.swift")) ∧
    (t.product = "unit_tests" →
      (targetBlocks projPath t).head?.bind RuleBlock.srcsAttr =
        some (SrcsAttr.globPattern "Fixture/Tests/**/*.swift")) ∧
    (t.product ≠ "app" → t.product ≠ "unit_tests" →
      (targetBlocks projPath t).head?.bind RuleBlock.srcsAttr =
        some (SrcsAttr.globPattern "Sources/**/*.swift")) := by
  refine ⟨?_, ?_, ?_⟩
  · intro hp
    simp [targetBlocks, srcsAttrOf, hp, h, RuleBlock.srcsAttr]
  · intro hp
    simp [targetBlocks, srcsAttrOf, hp, h, RuleBlock.srcsAttr]
  · intro h1 h2
    simp [targetBlocks, srcsAttrOf, h1, h2, h, RuleBlock.srcsAttr]

/-- Witness for C10 at a bare application target with no resolved files. -/
theorem c10_glob_fallback_witness :
    (targetBlocks "/p" c10AppTarget).head?.bind RuleBlock.srcsAttr =
      some (SrcsAttr.globPattern "Fixture/Sources/**/*.swift") :=
  (c10_glob_fallback "/p" c10AppTarget rfl).1 rfl
